import Mathlib

set_option maxRecDepth 100000

/-!
# Verification of the RouLette environment (gym_roulette/envs/roulette.py)

A shallow embedding of `RouletteEnv` from `src/gym_roulette/envs/roulette.py`.
Stakes are modelled as rationals (the Python code uses floats; all the
arithmetic here is exact linear combination, so ℚ is the faithful exact model).
The numpy random source `np_random` is modelled as an abstract stream
`rng : ℕ → ℕ` together with a position counter `pos`; `np_random.randint(0, n)`
returns a value in `[0, n)`, modelled as `rng pos % n` and advancing `pos`.
-/

namespace Roulette

/-- A history entry: the Python code appends either a drawn number or the
string `"leave"` to `self.history`. -/
inductive Entry where
  | num (v : ℕ) : Entry
  | leave : Entry
deriving DecidableEq

/-- The mutable environment state of `RouletteEnv`: `n` (= `spots`), the
append-only `history`, and the seeded random source (`rng` stream plus how
many draws have been consumed). -/
structure EnvState where
  n : ℕ
  history : List Entry
  rng : ℕ → ℕ
  pos : ℕ

/-- The 4-tuple `(observation, reward, done, info)` returned by `step`;
`info` carries only the `"history"` entry. -/
structure StepOut where
  observation : ℕ
  reward : ℚ
  done : Bool
  infoHistory : List Entry
deriving DecidableEq

/-- `RouletteEnv.__init__(spots)`: fresh history, seeded random source
(`self.seed()` with entropy modelled by the given stream). -/
def initEnv (spots : ℕ) (entropy : ℕ → ℕ) : EnvState :=
  { n := spots, history := [], rng := entropy, pos := 0 }

/-- `RouletteEnv.seed(seed)`: replaces the random source. -/
def seedEnv (env : EnvState) (newRng : ℕ → ℕ) : EnvState :=
  { env with rng := newRng, pos := 0 }

/-- Component access into the flat action vector, `action[i]`
(out-of-range reads default to 0; validity separately pins the length). -/
def idx (a : List ℚ) (i : ℕ) : ℚ := a.getD i 0

/-- `action_dict["0"]`: slice `action[:1]`. -/
def azero (a : List ℚ) : ℚ := idx a 0

/-- `action_dict["single"]`: slice `action[1:37]` reshaped to `(12,3)`
(row-major, as numpy `reshape`). -/
def single (a : List ℚ) (r c : ℕ) : ℚ := idx a (1 + 3 * r + c)

/-- `action_dict["line_split"]`: slice `action[37:61]` reshaped to `(12,2)`. -/
def lineSplit (a : List ℚ) (r j : ℕ) : ℚ := idx a (37 + 2 * r + j)

/-- `action_dict["column_split"]`: slice `action[61:94]` reshaped to `(11,3)`. -/
def columnSplit (a : List ℚ) (i c : ℕ) : ℚ := idx a (61 + 3 * i + c)

/-- `action_dict["street"]`: slice `action[94:106]`. -/
def street (a : List ℚ) (r : ℕ) : ℚ := idx a (94 + r)

/-- `action_dict["corner"]`: slice `action[106:128]` reshaped to `(11,2)`. -/
def corner (a : List ℚ) (i j : ℕ) : ℚ := idx a (106 + 2 * i + j)

/-- `action_dict["six_line"]`: slice `action[128:139]`. -/
def sixLine (a : List ℚ) (i : ℕ) : ℚ := idx a (128 + i)

/-- `action_dict["half"]`: slice `action[139:141]`. -/
def half (a : List ℚ) (k : ℕ) : ℚ := idx a (139 + k)

/-- `action_dict["red_black"]`: slice `action[141:143]`. -/
def redBlack (a : List ℚ) (k : ℕ) : ℚ := idx a (141 + k)

/-- `action_dict["even_odd"]`: slice `action[143:145]`. -/
def evenOdd (a : List ℚ) (k : ℕ) : ℚ := idx a (143 + k)

/-- `action_dict["dozen_bet"]`: slice `action[145:148]`. -/
def dozenBet (a : List ℚ) (k : ℕ) : ℚ := idx a (145 + k)

/-- `action_dict["column_bet"]`: slice `action[148:-1]`. -/
def columnBet (a : List ℚ) (k : ℕ) : ℚ := idx a (148 + k)

/-- `action_dict["leave"]`: slice `action[-1:]`, i.e. `action[151]` for a
valid 152-vector. -/
def leaveFlag (a : List ℚ) : ℚ := idx a 151

/-- The `self.gains` odds dictionary. -/
def gains (name : String) : ℚ :=
  if name = "0" then 35
  else if name = "single" then 35
  else if name = "line_split" then 17
  else if name = "column_split" then 17
  else if name = "street" then 11
  else if name = "corner" then 8
  else if name = "six_line" then 5
  else if name = "half" then 1
  else if name = "red_black" then 1
  else if name = "even_odd" then 1
  else if name = "dozen_bet" then 2
  else if name = "column_bet" then 2
  else 0

/-- The fixed red set `self.red`. -/
def red : Finset ℕ :=
  {1, 3, 5, 7, 9, 12, 14, 16, 18, 19, 21, 23, 25, 27, 30, 32, 34, 36}

/-- `val_arr`: the `(12,3)` zero matrix with a single 1 at
`((val-1)//3, (val-1)%3)`, read at position `(r, c)`. -/
def valArr (val r c : ℕ) : ℚ :=
  if r = (val - 1) / 3 ∧ c = (val - 1) % 3 then 1 else 0

/-- Row `i` of `np.eye(2)`, read at column `k`. -/
def eye2 (i k : ℕ) : ℚ := if k = i then 1 else 0

/-- Row `i` of `np.eye(3)`, read at column `k`. -/
def eye3 (i k : ℕ) : ℚ := if k = i then 1 else 0

/-- `np.sum(action_dict["single"] * gains["single"] * val_arr)`. -/
def singlePayout (a : List ℚ) (val : ℕ) : ℚ :=
  ∑ r ∈ Finset.range 12, ∑ c ∈ Finset.range 3,
    single a r c * gains "single" * valArr val r c

/-- The two `line_split` terms: `val_arr[:,1:]` reads `val_arr` at `(r, j+1)`
and `val_arr[:,:-1]` reads it at `(r, j)`. -/
def lineSplitPayout (a : List ℚ) (val : ℕ) : ℚ :=
  (∑ r ∈ Finset.range 12, ∑ j ∈ Finset.range 2,
    lineSplit a r j * gains "line_split" * valArr val r (j + 1))
  + ∑ r ∈ Finset.range 12, ∑ j ∈ Finset.range 2,
      lineSplit a r j * gains "line_split" * valArr val r j

/-- The two `column_split` terms: `val_arr[1:,:]` reads `val_arr` at
`(i+1, c)` and `val_arr[:-1,:]` reads it at `(i, c)`. -/
def columnSplitPayout (a : List ℚ) (val : ℕ) : ℚ :=
  (∑ i ∈ Finset.range 11, ∑ c ∈ Finset.range 3,
    columnSplit a i c * gains "column_split" * valArr val (i + 1) c)
  + ∑ i ∈ Finset.range 11, ∑ c ∈ Finset.range 3,
      columnSplit a i c * gains "column_split" * valArr val i c

/-- `np.sum(np.tile(street,(3,1)).T * gains["street"] * val_arr)`: the
tiled-transposed array reads `street[r]` at every `(r, c)`. -/
def streetPayout (a : List ℚ) (val : ℕ) : ℚ :=
  ∑ r ∈ Finset.range 12, ∑ c ∈ Finset.range 3,
    street a r * gains "street" * valArr val r c

/-- The four `corner` terms: `val_arr[1:,1:]`, `val_arr[1:,:-1]`,
`val_arr[:-1,1:]`, `val_arr[:-1,:-1]` read `val_arr` at `(i+1, j+1)`,
`(i+1, j)`, `(i, j+1)`, `(i, j)` respectively. -/
def cornerPayout (a : List ℚ) (val : ℕ) : ℚ :=
  (∑ i ∈ Finset.range 11, ∑ j ∈ Finset.range 2,
    corner a i j * gains "corner" * valArr val (i + 1) (j + 1))
  + (∑ i ∈ Finset.range 11, ∑ j ∈ Finset.range 2,
      corner a i j * gains "corner" * valArr val (i + 1) j)
  + (∑ i ∈ Finset.range 11, ∑ j ∈ Finset.range 2,
      corner a i j * gains "corner" * valArr val i (j + 1))
  + ∑ i ∈ Finset.range 11, ∑ j ∈ Finset.range 2,
      corner a i j * gains "corner" * valArr val i j

/-- The two `six_line` terms (tiled to `(11,3)` against `val_arr[1:,:]`
and `val_arr[:-1,:]`). -/
def sixLinePayout (a : List ℚ) (val : ℕ) : ℚ :=
  (∑ i ∈ Finset.range 11, ∑ c ∈ Finset.range 3,
    sixLine a i * gains "six_line" * valArr val (i + 1) c)
  + ∑ i ∈ Finset.range 11, ∑ c ∈ Finset.range 3,
      sixLine a i * gains "six_line" * valArr val i c

/-- `np.sum(eye2[int(val > 18)] * action_dict["half"] * gains["half"])`. -/
def halfPayout (a : List ℚ) (val : ℕ) : ℚ :=
  ∑ k ∈ Finset.range 2, eye2 (if 18 < val then 1 else 0) k * half a k * gains "half"

/-- `np.sum(eye2[int(val not in red)] * action_dict["red_black"] * gains["red_black"])`. -/
def redBlackPayout (a : List ℚ) (val : ℕ) : ℚ :=
  ∑ k ∈ Finset.range 2, eye2 (if val ∈ red then 0 else 1) k * redBlack a k * gains "red_black"

/-- `np.sum(eye2[val % 2] * action_dict["even_odd"] * gains["even_odd"])`. -/
def evenOddPayout (a : List ℚ) (val : ℕ) : ℚ :=
  ∑ k ∈ Finset.range 2, eye2 (val % 2) k * evenOdd a k * gains "even_odd"

/-- `np.sum(eye3[(val-1)//12] * action_dict["dozen_bet"] * gains["dozen_bet"])`. -/
def dozenPayout (a : List ℚ) (val : ℕ) : ℚ :=
  ∑ k ∈ Finset.range 3, eye3 ((val - 1) / 12) k * dozenBet a k * gains "dozen_bet"

/-- `np.sum(eye3[(val-1)%3] * action_dict["column_bet"] * gains["column_bet"])`. -/
def columnBetPayout (a : List ℚ) (val : ℕ) : ℚ :=
  ∑ k ∈ Finset.range 3, eye3 ((val - 1) % 3) k * columnBet a k * gains "column_bet"

/-- The accumulated `reward +=` terms of `step` before the stake
subtraction loop: the gross payout for the drawn number `val`. -/
def grossPayout (a : List ℚ) (val : ℕ) : ℚ :=
  if val = 0 then
    azero a * gains "0"
  else
    singlePayout a val + lineSplitPayout a val + columnSplitPayout a val
    + streetPayout a val + cornerPayout a val + sixLinePayout a val
    + halfPayout a val + redBlackPayout a val + evenOddPayout a val
    + dozenPayout a val + columnBetPayout a val

/-- The `for name, bets in action_dict.items(): reward -= np.sum(bets)`
loop: the sum of every slice of the action dictionary. -/
def totalStake (a : List ℚ) : ℚ :=
  azero a
  + (∑ r ∈ Finset.range 12, ∑ c ∈ Finset.range 3, single a r c)
  + (∑ r ∈ Finset.range 12, ∑ j ∈ Finset.range 2, lineSplit a r j)
  + (∑ i ∈ Finset.range 11, ∑ c ∈ Finset.range 3, columnSplit a i c)
  + (∑ r ∈ Finset.range 12, street a r)
  + (∑ i ∈ Finset.range 11, ∑ j ∈ Finset.range 2, corner a i j)
  + (∑ i ∈ Finset.range 11, sixLine a i)
  + (∑ k ∈ Finset.range 2, half a k)
  + (∑ k ∈ Finset.range 2, redBlack a k)
  + (∑ k ∈ Finset.range 2, evenOdd a k)
  + (∑ k ∈ Finset.range 3, dozenBet a k)
  + (∑ k ∈ Finset.range 3, columnBet a k)
  + leaveFlag a

/-- `self.action_space.contains(action)` for `Box(low=0, high=1, shape=(152,))`:
the vector has exactly 152 components, each within `[0, 1]`. -/
def actionValid (a : List ℚ) : Prop :=
  a.length = 152 ∧ ∀ i < 152, 0 ≤ idx a i ∧ idx a i ≤ 1

instance (a : List ℚ) : Decidable (actionValid a) := by
  unfold actionValid; infer_instance

/-- `RouletteEnv.step(action)`. Mirrors the source: assert the action is in
the `Box`; if the `"leave"` slice equals 1 return
`(38, -10, True, history + ["leave"])` without touching the state; otherwise
draw `val`, append it to history, accumulate the payout terms and subtract
every slice's sum. A failed assertion is the `.error` result, with the state
returned unchanged. -/
def step (env : EnvState) (a : List ℚ) : Except Unit StepOut × EnvState :=
  if actionValid a then
    if leaveFlag a = 1 then
      (Except.ok ⟨38, -10, true, env.history ++ [Entry.leave]⟩, env)
    else
      let val := env.rng env.pos % env.n
      let env' := { env with history := env.history ++ [Entry.num val],
                             pos := env.pos + 1 }
      (Except.ok ⟨val, grossPayout a val - totalStake a, false, env'.history⟩, env')
  else (Except.error (), env)

/-- `RouletteEnv.reset()`: clear the history, reseed (`self.seed()` drawing a
fresh entropy-derived generator), return observation 0. -/
def reset (env : EnvState) (entropy : ℕ → ℕ) : ℕ × EnvState :=
  (0, { env with history := [], rng := entropy, pos := 0 })

/-- `observation_space = spaces.Discrete(spots+1)` membership: the values
`0, 1, ..., spots`. -/
def observationContains (spots v : ℕ) : Prop := v < spots + 1

instance (spots v : ℕ) : Decidable (observationContains spots v) := by
  unfold observationContains; infer_instance

/-- An action vector given componentwise: the 152-list whose `i`-th entry is
`f i`. -/
def mkAction (f : ℕ → ℚ) : List ℚ := (List.range 152).map f

/-- The action staking `s` on the single component `v` and 0 everywhere else. -/
def unitAct (v : ℕ) (s : ℚ) : List ℚ := mkAction fun k => if k = v then s else 0

/-- The all-zero action vector. -/
def zeroAct : List ℚ := List.replicate 152 0

/-- The action whose `"leave"` flag is 1 and every stake 0. -/
def leaveAct : List ℚ := List.replicate 151 0 ++ [1]

/-- An action staking two overlapping corner slots, `(0,0)` (component 106)
and `(1,1)` (component 109); both 2×2 footprints contain pocket 5 = grid
cell `(1,1)`. -/
def cornerPairAct : List ℚ :=
  mkAction fun k => if k = 106 then mkRat 1 2 else if k = 109 then mkRat 1 3 else 0

/-- A 37-spot environment whose random source always draws `v` (`v < 37`). -/
def envDraw (v : ℕ) : EnvState := initEnv 37 fun _ => v

theorem length_mkAction (f : ℕ → ℚ) : (mkAction f).length = 152 := by
  simp [mkAction]

theorem idx_mkAction (f : ℕ → ℚ) (i : ℕ) :
    idx (mkAction f) i = if i < 152 then f i else 0 := by
  unfold idx mkAction
  rcases Nat.lt_or_ge i 152 with h | h
  · rw [if_pos h, List.getD_eq_getElem _ _ (by simpa using h)]
    simp
  · rw [if_neg (by omega), List.getD_eq_default _ _ (by simpa using h)]

/-- The stake-subtraction loop sums every slice of the dictionary, and the
slices partition the 152 components: the loop subtracts exactly
`∑ i < 152, action[i]`. -/
theorem totalStake_eq_sum (a : List ℚ) :
    totalStake a = ∑ i ∈ Finset.range 152, idx a i := by
  simp only [totalStake, azero, single, lineSplit, columnSplit, street, corner,
    sixLine, half, redBlack, evenOdd, dozenBet, columnBet, leaveFlag,
    Finset.sum_range_succ, Finset.sum_range_zero]
  norm_num
  ring

theorem idx_unitAct (v : ℕ) (s : ℚ) (i : ℕ) :
    idx (unitAct v s) i = if i = v ∧ i < 152 then s else 0 := by
  rw [unitAct, idx_mkAction]
  by_cases h1 : i < 152 <;> by_cases h2 : i = v <;> simp [h1, h2]

theorem actionValid_unitAct (v : ℕ) (s : ℚ) (h0 : 0 ≤ s) (h1 : s ≤ 1) :
    actionValid (unitAct v s) := by
  refine ⟨length_mkAction _, fun i hi => ?_⟩
  rw [idx_unitAct]
  by_cases h : i = v ∧ i < 152
  · rw [if_pos h]; exact ⟨h0, h1⟩
  · rw [if_neg h]; norm_num

/-- The sum of all 152 components of a one-point action is its single stake. -/
theorem sum_unitAct (v : ℕ) (s : ℚ) (hv : v < 152) :
    (∑ i ∈ Finset.range 152, idx (unitAct v s) i) = s := by
  have h : ∀ i ∈ Finset.range 152, idx (unitAct v s) i = if i = v then s else 0 := by
    intro i hi
    rw [idx_unitAct]
    by_cases h2 : i = v
    · rw [if_pos ⟨h2, Finset.mem_range.mp hi⟩, if_pos h2]
    · rw [if_neg fun hc => h2 hc.1, if_neg h2]
  rw [Finset.sum_congr rfl h,
    Finset.sum_ite_eq' (Finset.range 152) v fun _ => s,
    if_pos (Finset.mem_range.mpr hv)]

/-- For a drawn number `1 ≤ val ≤ 36` the straight-up sum collapses to the
single slot at grid position `((val-1)//3, (val-1)%3)`. -/
theorem singlePayout_eq (a : List ℚ) (val : ℕ) (h1 : 1 ≤ val) (h2 : val ≤ 36) :
    singlePayout a val = single a ((val - 1) / 3) ((val - 1) % 3) * 35 := by
  have hR : (val - 1) / 3 < 12 := by omega
  have hC : (val - 1) % 3 < 3 := Nat.mod_lt _ (by norm_num)
  unfold singlePayout
  rw [Finset.sum_eq_single_of_mem ((val - 1) / 3) (Finset.mem_range.mpr hR)]
  · rw [Finset.sum_eq_single_of_mem ((val - 1) % 3) (Finset.mem_range.mpr hC)]
    · rw [valArr, if_pos ⟨rfl, rfl⟩]
      show single a _ _ * 35 * 1 = _
      ring
    · intro c _ hc
      rw [valArr, if_neg fun h => hc h.2, mul_zero]
  · intro r _ hr
    exact Finset.sum_eq_zero fun c _ => by
      rw [valArr, if_neg fun h => hr h.1, mul_zero]

/-- When the drawn number is 0, the gross payout is the straight-up-0 stake at
odds 35 and nothing else. -/
theorem grossPayout_zero (a : List ℚ) : grossPayout a 0 = azero a * 35 := by
  rw [grossPayout, if_pos rfl]
  norm_num [gains]

/-- For an action whose only possibly-nonzero components lie among the
straight-up slots on 1–36 (components 1..36), the gross payout at a nonzero
drawn number is just the straight-up contribution. -/
theorem grossPayout_insideOnly (a : List ℚ) (val : ℕ) (h1 : 1 ≤ val)
    (hz : ∀ i, 37 ≤ i → idx a i = 0) :
    grossPayout a val = singlePayout a val := by
  rw [grossPayout, if_neg (by omega)]
  have e2 : lineSplitPayout a val = 0 := by
    rw [lineSplitPayout]
    rw [Finset.sum_eq_zero fun r _ => Finset.sum_eq_zero fun j _ => by
      rw [lineSplit, hz _ (by omega), zero_mul, zero_mul]]
    rw [Finset.sum_eq_zero fun r _ => Finset.sum_eq_zero fun j _ => by
      rw [lineSplit, hz _ (by omega), zero_mul, zero_mul]]
    rw [add_zero]
  have e3 : columnSplitPayout a val = 0 := by
    rw [columnSplitPayout]
    rw [Finset.sum_eq_zero fun i _ => Finset.sum_eq_zero fun c _ => by
      rw [columnSplit, hz _ (by omega), zero_mul, zero_mul]]
    rw [Finset.sum_eq_zero fun i _ => Finset.sum_eq_zero fun c _ => by
      rw [columnSplit, hz _ (by omega), zero_mul, zero_mul]]
    rw [add_zero]
  have e4 : streetPayout a val = 0 :=
    Finset.sum_eq_zero fun r _ => Finset.sum_eq_zero fun c _ => by
      rw [street, hz _ (by omega), zero_mul, zero_mul]
  have e5 : cornerPayout a val = 0 := by
    rw [cornerPayout]
    iterate 4 rw [Finset.sum_eq_zero fun i _ => Finset.sum_eq_zero fun j _ => by
      rw [corner, hz _ (by omega), zero_mul, zero_mul]]
    rw [add_zero, add_zero, add_zero]
  have e6 : sixLinePayout a val = 0 := by
    rw [sixLinePayout]
    rw [Finset.sum_eq_zero fun i _ => Finset.sum_eq_zero fun c _ => by
      rw [sixLine, hz _ (by omega), zero_mul, zero_mul]]
    rw [Finset.sum_eq_zero fun i _ => Finset.sum_eq_zero fun c _ => by
      rw [sixLine, hz _ (by omega), zero_mul, zero_mul]]
    rw [add_zero]
  have e7 : halfPayout a val = 0 :=
    Finset.sum_eq_zero fun k _ => by
      rw [half, hz _ (by omega), mul_zero, zero_mul]
  have e8 : redBlackPayout a val = 0 :=
    Finset.sum_eq_zero fun k _ => by
      rw [redBlack, hz _ (by omega), mul_zero, zero_mul]
  have e9 : evenOddPayout a val = 0 :=
    Finset.sum_eq_zero fun k _ => by
      rw [evenOdd, hz _ (by omega), mul_zero, zero_mul]
  have e10 : dozenPayout a val = 0 :=
    Finset.sum_eq_zero fun k _ => by
      rw [dozenBet, hz _ (by omega), mul_zero, zero_mul]
  have e11 : columnBetPayout a val = 0 :=
    Finset.sum_eq_zero fun k _ => by
      rw [columnBet, hz _ (by omega), mul_zero, zero_mul]
  rw [e2, e3, e4, e5, e6, e7, e8, e9, e10, e11]
  ring

/-- The gross payout reads only components 0..150 of the action: two actions
agreeing there (in particular, differing only in the `"leave"` flag at
component 151) produce the same gross payout. -/
theorem grossPayout_congr (a b : List ℚ) (val : ℕ)
    (h : ∀ i < 151, idx b i = idx a i) :
    grossPayout b val = grossPayout a val := by
  by_cases hval : val = 0
  · rw [hval, grossPayout_zero, grossPayout_zero, azero, azero, h 0 (by omega)]
  · rw [grossPayout, grossPayout, if_neg hval, if_neg hval]
    simp only [singlePayout, lineSplitPayout, columnSplitPayout, streetPayout,
      cornerPayout, sixLinePayout, halfPayout, redBlackPayout, evenOddPayout,
      dozenPayout, columnBetPayout, single, lineSplit, columnSplit, street,
      corner, sixLine, half, redBlack, evenOdd, dozenBet, columnBet,
      Finset.sum_range_succ, Finset.sum_range_zero]
    norm_num [h]

/-- Pointwise corner bookkeeping: of the four placement-variant terms of one
corner slot, the ones that fire are exactly counted by whether the drawn cell
`(R, C)` lies in the slot's 2×2 footprint of rows `i, i+1` and columns
`j, j+1` (at most one variant fires, since the four checked cells are
distinct). -/
theorem corner_cell_sum (x : ℚ) (R C i j : ℕ) :
    x * (if i + 1 = R ∧ j + 1 = C then (1 : ℚ) else 0)
      + x * (if i + 1 = R ∧ j = C then 1 else 0)
      + x * (if i = R ∧ j + 1 = C then 1 else 0)
      + x * (if i = R ∧ j = C then 1 else 0)
    = if (R = i ∨ R = i + 1) ∧ (C = j ∨ C = j + 1) then x else 0 := by
  by_cases h1 : R = i <;> by_cases h2 : R = i + 1 <;>
    by_cases h3 : C = j <;> by_cases h4 : C = j + 1 <;>
      first
        | omega
        | (rw [if_pos (by omega), if_neg (by omega), if_neg (by omega),
            if_neg (by omega), if_pos (by omega)]
           ring)
        | (rw [if_neg (by omega), if_pos (by omega), if_neg (by omega),
            if_neg (by omega), if_pos (by omega)]
           ring)
        | (rw [if_neg (by omega), if_neg (by omega), if_pos (by omega),
            if_neg (by omega), if_pos (by omega)]
           ring)
        | (rw [if_neg (by omega), if_neg (by omega), if_neg (by omega),
            if_pos (by omega), if_pos (by omega)]
           ring)
        | (rw [if_neg (by omega), if_neg (by omega), if_neg (by omega),
            if_neg (by omega), if_neg (by omega)]
           ring)

/-- On the play path, `step` reduces to: draw, append, pay, subtract. -/
theorem step_play (env : EnvState) (a : List ℚ) (hv : actionValid a)
    (hl : leaveFlag a ≠ 1) :
    step env a
      = (Except.ok ⟨env.rng env.pos % env.n,
            grossPayout a (env.rng env.pos % env.n) - totalStake a, false,
            env.history ++ [Entry.num (env.rng env.pos % env.n)]⟩,
          { env with history := env.history ++ [Entry.num (env.rng env.pos % env.n)],
                     pos := env.pos + 1 }) := by
  rw [step, if_pos hv, if_neg hl]

/-- On the leave path, `step` returns the fixed tuple and the state as it was. -/
theorem step_leave (env : EnvState) (a : List ℚ) (hv : actionValid a)
    (hl : leaveFlag a = 1) :
    step env a
      = (Except.ok ⟨38, -10, true, env.history ++ [Entry.leave]⟩, env) := by
  rw [step, if_pos hv, if_pos hl]

/-- **C1.** For every wager vector in the 152-dimensional unit box whose leave
component is not 1, `step` returns reward equal to the gross payout for the
drawn number minus the sum of all 152 stake components of the wager vector,
exactly. -/
theorem C1_reward_is_gross_minus_total_stake (env : EnvState) (a : List ℚ)
    (hv : actionValid a) (hl : leaveFlag a ≠ 1) :
    ∃ out env', step env a = (Except.ok out, env')
      ∧ out.reward
          = grossPayout a out.observation - ∑ i ∈ Finset.range 152, idx a i := by
  refine ⟨_, _, step_play env a hv hl, ?_⟩
  rw [totalStake_eq_sum]

/-- **C1 witness**: the all-zero wager (leave component 0) on a concrete
37-spot environment. -/
theorem C1_witness :
    ∃ out env', step (envDraw 0) zeroAct = (Except.ok out, env')
      ∧ out.reward
          = grossPayout zeroAct out.observation
            - ∑ i ∈ Finset.range 152, idx zeroAct i :=
  C1_reward_is_gross_minus_total_stake (envDraw 0) zeroAct (by decide) (by decide)

/-- **C2.** For every valid wager vector whose leave component equals 1,
`step` returns outcome 38, reward −10, terminal true, regardless of all other
stake components, and the environment state — including the random source and
its position, so no draw is consumed — is returned unchanged. -/
theorem C2_leave_short_circuit (env : EnvState) (a : List ℚ)
    (hv : actionValid a) (hl : leaveFlag a = 1) :
    step env a = (Except.ok ⟨38, -10, true, env.history ++ [Entry.leave]⟩, env) :=
  step_leave env a hv hl

/-- **C2 witness**: the concrete leave action on a concrete environment. -/
theorem C2_witness :
    step (envDraw 0) leaveAct
      = (Except.ok ⟨38, -10, true, (envDraw 0).history ++ [Entry.leave]⟩,
          envDraw 0) :=
  C2_leave_short_circuit (envDraw 0) leaveAct (by decide) (by decide)

/-- **C7.** `step` called with a wager vector of the wrong length, or with any
component outside `[0,1]`, fails with the assertion error before any random
draw or history modification: the result is the error outcome and the
environment state is returned unchanged. -/
theorem C7_invalid_action_asserts (env : EnvState) (a : List ℚ)
    (hbad : a.length ≠ 152 ∨ ∃ x ∈ a, x < 0 ∨ 1 < x) :
    step env a = (Except.error (), env) := by
  have hna : ¬ actionValid a := by
    intro hv
    rcases hbad with h | ⟨x, hx, h⟩
    · exact h hv.1
    · rcases List.mem_iff_getElem.mp hx with ⟨i, hilen, hi⟩
      have hi152 : i < 152 := by
        have := hv.1
        omega
      have hb := hv.2 i hi152
      rw [idx, List.getD_eq_getElem _ _ hilen, hi] at hb
      rcases h with h | h <;> linarith [hb.1, hb.2]
  rw [step, if_neg hna]

/-- **C7 witness**: a length-1 action vector is rejected. -/
theorem C7_witness :
    step (envDraw 0) [(2 : ℚ)] = (Except.error (), envDraw 0) :=
  C7_invalid_action_asserts (envDraw 0) [(2 : ℚ)] (Or.inl (by decide))

/-- **C9.** `reset()` always leaves the environment with an empty history,
installs the freshly seeded random source (position 0 of the new entropy
stream), and returns the initial observation 0 — for every prior state. -/
theorem C9_reset (env : EnvState) (entropy : ℕ → ℕ) :
    reset env entropy
      = (0, { n := env.n, history := [], rng := entropy, pos := 0 }) := rfl

/-- **C3 counterexample.** Starting from an empty history, a leave step does
NOT append `"leave"` to the environment's own history: the post-call
environment history is still `[]`, not `[] ++ ["leave"]`. The code builds
`self.history + ["leave"]` only inside the returned info dict. -/
theorem C3_counterexample :
    (step (envDraw 0) leaveAct).2.history = []
      ∧ (step (envDraw 0) leaveAct).2.history
          ≠ (envDraw 0).history ++ [Entry.leave] := by
  rw [step_leave (envDraw 0) leaveAct (by decide) (by decide)]
  exact ⟨rfl, by decide⟩

/-- **C3 amended.** When `step` is called with the leave component equal to 1,
the environment's history is left unchanged; only the info dict returned by
the call carries `history + ["leave"]`, the history-so-far ending in the
sentinel `"leave"`. -/
theorem C3_amended_leave_history (env : EnvState) (a : List ℚ)
    (hv : actionValid a) (hl : leaveFlag a = 1) :
    ∃ out, (step env a).1 = Except.ok out
      ∧ (step env a).2.history = env.history
      ∧ out.infoHistory = env.history ++ [Entry.leave]
      ∧ out.infoHistory.getLast? = some Entry.leave := by
  rw [step_leave env a hv hl]
  exact ⟨_, rfl, rfl, rfl, List.getLast?_concat _⟩

/-- **C3 amended witness**: the concrete leave action on a concrete
environment. -/
theorem C3_amended_witness :
    ∃ out, (step (envDraw 0) leaveAct).1 = Except.ok out
      ∧ (step (envDraw 0) leaveAct).2.history = (envDraw 0).history
      ∧ out.infoHistory = (envDraw 0).history ++ [Entry.leave]
      ∧ out.infoHistory.getLast? = some Entry.leave :=
  C3_amended_leave_history (envDraw 0) leaveAct (by decide) (by decide)

/-- **C4 counterexample.** With `spots = 37` the observation space is
`Discrete(38)`, i.e. the values `0..37`; but a leave step returns outcome 38,
which lies outside that range — so not every outcome returned by `step` lies
within the observation range `[0, spots]`. -/
theorem C4_counterexample :
    ∃ out, (step (envDraw 0) leaveAct).1 = Except.ok out
      ∧ out.observation = 38 ∧ ¬ observationContains 37 out.observation := by
  rw [step_leave (envDraw 0) leaveAct (by decide) (by decide)]
  refine ⟨_, rfl, rfl, ?_⟩
  show ¬ observationContains 37 38
  decide

/-- **C4 amended.** For an environment with `spots = 37`, every outcome of a
play-path step (leave component ≠ 1) is a drawn number in `[0, 36]`, inside
the observation range `[0, spots]`; a leave-path step instead returns the
sentinel 38 = spots+1, which lies outside the observation range. -/
theorem C4_amended_outcome_range (env : EnvState) (a : List ℚ)
    (hn : env.n = 37) (hv : actionValid a) :
    (leaveFlag a ≠ 1 →
      ∃ out env', step env a = (Except.ok out, env')
        ∧ out.observation ≤ 36 ∧ observationContains 37 out.observation)
    ∧ (leaveFlag a = 1 →
      ∃ out env', step env a = (Except.ok out, env')
        ∧ out.observation = 38 ∧ ¬ observationContains 37 out.observation) := by
  constructor
  · intro hl
    refine ⟨_, _, step_play env a hv hl, ?_, ?_⟩
    · show env.rng env.pos % env.n ≤ 36
      rw [hn]
      exact Nat.le_of_lt_succ (Nat.mod_lt _ (by norm_num))
    · show env.rng env.pos % env.n < 37 + 1
      rw [hn]
      exact Nat.lt_succ_of_lt (Nat.mod_lt _ (by norm_num))
  · intro hl
    refine ⟨_, _, step_leave env a hv hl, rfl, ?_⟩
    show ¬ observationContains 37 38
    decide

/-- **C4 amended witness**: concrete 37-spot environment; the all-zero wager
takes the play path and lands in range, the leave wager returns 38. -/
theorem C4_amended_witness :
    ((leaveFlag zeroAct ≠ 1 →
      ∃ out env', step (envDraw 0) zeroAct = (Except.ok out, env')
        ∧ out.observation ≤ 36 ∧ observationContains 37 out.observation)
    ∧ (leaveFlag zeroAct = 1 →
      ∃ out env', step (envDraw 0) zeroAct = (Except.ok out, env')
        ∧ out.observation = 38 ∧ ¬ observationContains 37 out.observation)) :=
  C4_amended_outcome_range (envDraw 0) zeroAct rfl (by decide)

/-- **C10.** A valid wager whose leave component is 0 or strictly between 0
and 1 takes the play path: a number is drawn (the position of the random
source advances) and appended to history, the terminal flag is false, and the
reward subtracts the leave component together with all other 151 stakes while
the gross payout does not depend on the leave component at all — a fractional
leave flag is a stake that can never win. -/
theorem C10_fractional_leave_is_dead_stake (env : EnvState) (a : List ℚ)
    (hv : actionValid a) (hl : leaveFlag a < 1) :
    ∃ out, step env a
        = (Except.ok out,
            { env with
                history := env.history ++ [Entry.num (env.rng env.pos % env.n)],
                pos := env.pos + 1 })
      ∧ out.done = false
      ∧ out.reward
          = grossPayout a (env.rng env.pos % env.n)
            - ((∑ i ∈ Finset.range 151, idx a i) + leaveFlag a)
      ∧ ∀ b : List ℚ, (∀ i < 151, idx b i = idx a i) →
          grossPayout b (env.rng env.pos % env.n)
            = grossPayout a (env.rng env.pos % env.n) := by
  have hl' : leaveFlag a ≠ 1 := fun h => by rw [h] at hl; exact lt_irrefl 1 hl
  refine ⟨_, step_play env a hv hl', rfl, ?_,
    fun b hb => grossPayout_congr a b _ hb⟩
  show grossPayout a _ - totalStake a = _
  rw [totalStake_eq_sum, Finset.sum_range_succ]
  rfl

/-- **C10 witness**: a wager staking `mkRat 1 2` on the leave component
only — a fractional leave flag strictly between 0 and 1. -/
theorem C10_witness :
    ∃ out, step (envDraw 0) (unitAct 151 (mkRat 1 2))
        = (Except.ok out,
            { envDraw 0 with
                history := (envDraw 0).history
                  ++ [Entry.num ((envDraw 0).rng (envDraw 0).pos % (envDraw 0).n)],
                pos := (envDraw 0).pos + 1 })
      ∧ out.done = false
      ∧ out.reward
          = grossPayout (unitAct 151 (mkRat 1 2))
              ((envDraw 0).rng (envDraw 0).pos % (envDraw 0).n)
            - ((∑ i ∈ Finset.range 151, idx (unitAct 151 (mkRat 1 2)) i)
                + leaveFlag (unitAct 151 (mkRat 1 2)))
      ∧ ∀ b : List ℚ, (∀ i < 151, idx b i = idx (unitAct 151 (mkRat 1 2)) i) →
          grossPayout b ((envDraw 0).rng (envDraw 0).pos % (envDraw 0).n)
            = grossPayout (unitAct 151 (mkRat 1 2))
                ((envDraw 0).rng (envDraw 0).pos % (envDraw 0).n) :=
  C10_fractional_leave_is_dead_stake (envDraw 0) (unitAct 151 (mkRat 1 2))
    (by decide) (by decide)

/-- **C5.** When the drawn number is 0, only the straight-up-on-0 slot
contributes a payout, at multiplier 35 (the gross payout for 0 is exactly
`action[0] * 35` for every wager vector); in particular a valid wager staking
only the straight-up-0 slot at `s` yields reward `35s - s`. -/
theorem C5_zero_pays_only_zero_slot (env : EnvState) (s : ℚ)
    (h0 : 0 ≤ s) (h1 : s ≤ 1) (hdraw : env.rng env.pos % env.n = 0) :
    (∀ a : List ℚ, grossPayout a 0 = azero a * 35)
    ∧ ∃ out env', step env (unitAct 0 s) = (Except.ok out, env')
        ∧ out.observation = 0 ∧ out.reward = 35 * s - s := by
  refine ⟨grossPayout_zero, ?_⟩
  have hv := actionValid_unitAct 0 s h0 h1
  have hl : leaveFlag (unitAct 0 s) ≠ 1 := by
    rw [leaveFlag, idx_unitAct, if_neg (by omega)]
    norm_num
  refine ⟨_, _, step_play env _ hv hl, hdraw, ?_⟩
  show grossPayout (unitAct 0 s) (env.rng env.pos % env.n)
      - totalStake (unitAct 0 s) = 35 * s - s
  rw [hdraw, grossPayout_zero, totalStake_eq_sum, sum_unitAct 0 s (by norm_num),
    azero, idx_unitAct, if_pos ⟨rfl, by norm_num⟩]
  ring

/-- **C5 witness**: stake 1/2 on the straight-up-0 slot, drawn number 0. -/
theorem C5_witness :
    ((∀ a : List ℚ, grossPayout a 0 = azero a * 35)
    ∧ ∃ out env', step (envDraw 0) (unitAct 0 (1/2)) = (Except.ok out, env')
        ∧ out.observation = 0 ∧ out.reward = 35 * (1/2) - 1/2) :=
  C5_zero_pays_only_zero_slot (envDraw 0) (1/2) (by norm_num) (by norm_num) rfl

/-- **C8.** For every drawn number `val` in 1..36, the straight-up category
collapses to exactly the slot at grid position `((val-1)//3, (val-1)%3)` at
multiplier 35; staking `s` on the exact drawn number with all other
components zero yields reward `35s - s`. -/
theorem C8_straight_up_exact_slot (env : EnvState) (a : List ℚ) (val : ℕ)
    (s : ℚ) (hval1 : 1 ≤ val) (hval2 : val ≤ 36) (h0 : 0 ≤ s) (h1 : s ≤ 1)
    (hdraw : env.rng env.pos % env.n = val) :
    singlePayout a val = single a ((val - 1) / 3) ((val - 1) % 3) * 35
    ∧ ∃ out env', step env (unitAct val s) = (Except.ok out, env')
        ∧ out.observation = val ∧ out.reward = 35 * s - s := by
  refine ⟨singlePayout_eq a val hval1 hval2, ?_⟩
  have hv := actionValid_unitAct val s h0 h1
  have hl : leaveFlag (unitAct val s) ≠ 1 := by
    rw [leaveFlag, idx_unitAct, if_neg (by omega)]
    norm_num
  refine ⟨_, _, step_play env _ hv hl, hdraw, ?_⟩
  show grossPayout (unitAct val s) (env.rng env.pos % env.n)
      - totalStake (unitAct val s) = 35 * s - s
  rw [hdraw, totalStake_eq_sum, sum_unitAct val s (by omega),
    grossPayout_insideOnly _ val hval1
      (fun i hi => by rw [idx_unitAct, if_neg (by omega)]),
    singlePayout_eq _ val hval1 hval2, single, idx_unitAct,
    if_pos ⟨by omega, by omega⟩]
  ring

/-- **C8 witness**: stake 1/2 on number 5, drawn number 5. -/
theorem C8_witness :
    (singlePayout zeroAct 5 = single zeroAct ((5 - 1) / 3) ((5 - 1) % 3) * 35
    ∧ ∃ out env', step (envDraw 5) (unitAct 5 (1/2)) = (Except.ok out, env')
        ∧ out.observation = 5 ∧ out.reward = 35 * (1/2) - 1/2) :=
  C8_straight_up_exact_slot (envDraw 5) zeroAct 5 (1/2) (by norm_num)
    (by norm_num) (by norm_num) (by norm_num) rfl

/-- **C6.** Each corner-bet slot `(i, j)` contributes `8 × stake` to the gross
payout exactly when the drawn pocket's grid cell lies in its 2×2 footprint of
rows `i, i+1` and columns `j, j+1` — once per covering placement variant, with
no deduplication across overlapping slots: the total corner contribution is
the sum over every covering slot. -/
theorem C6_corner_once_per_covering_placement (a : List ℚ) (val : ℕ)
    (h1 : 1 ≤ val) (h2 : val ≤ 36) :
    cornerPayout a val
      = ∑ i ∈ Finset.range 11, ∑ j ∈ Finset.range 2,
          (if ((val - 1) / 3 = i ∨ (val - 1) / 3 = i + 1)
              ∧ ((val - 1) % 3 = j ∨ (val - 1) % 3 = j + 1)
            then 8 * corner a i j else 0) := by
  rw [cornerPayout]
  simp only [← Finset.sum_add_distrib]
  refine Finset.sum_congr rfl fun i _ => Finset.sum_congr rfl fun j _ => ?_
  simp only [valArr]
  rw [corner_cell_sum (corner a i j * gains "corner")
    ((val - 1) / 3) ((val - 1) % 3) i j]
  split
  · rw [show gains "corner" = (8 : ℚ) from by decide]
    ring
  · rfl

/-- **C6 witness**: pocket 5 = grid cell (1,1) with stakes on the two
overlapping corner slots (0,0) and (1,1); both covering slots pay. -/
theorem C6_witness :
    cornerPayout cornerPairAct 5
      = ∑ i ∈ Finset.range 11, ∑ j ∈ Finset.range 2,
          (if ((5 - 1) / 3 = i ∨ (5 - 1) / 3 = i + 1)
              ∧ ((5 - 1) % 3 = j ∨ (5 - 1) % 3 = j + 1)
            then 8 * corner cornerPairAct i j else 0) :=
  C6_corner_once_per_covering_placement cornerPairAct 5 (by norm_num)
    (by norm_num)

end Roulette
